import Mathlib

/-!
Verification of the rustscan `main.rs` glue code: the FD-budget adapter
(`adjust_ulimit_size`, `infer_batch_size`) and the result-aggregation /
diagnostic phase of `main`.

Modelling conventions:
* `u16` and `u64` values are natural numbers; where the Rust types bound a
  value we carry the bound as a hypothesis (`opts.batch_size < 2 ^ 16`).
  u64 arithmetic that can overflow or underflow is written with an explicit
  wraparound modulo `2 ^ 64` (release-profile wrapping semantics).
* IP addresses are an abstract type with decidable equality, instantiated
  as `Nat`; only equality of addresses matters to the code modelled here.
* Console output is modelled by boolean event fields (one per distinct
  diagnostic) rather than by strings; `std::process::exit(1)` and an
  `expect` panic are modelled as distinguished outcomes.
* The Rust `HashMap<IpAddr, Vec<u16>>` is modelled as an association list;
  `entry(k).or_insert_with(Vec::new).push(v)` appends to the existing
  entry or inserts a fresh singleton entry.
-/

namespace RustScan

/-- IP addresses, modelled as an abstract type with decidable equality. -/
abbrev IpAddr := Nat

/-- A `std::net::SocketAddr` as used by the scan result: an address plus a
port (the port a `u16`). -/
structure SocketAddr where
  ip : IpAddr
  port : Nat
deriving Repr, DecidableEq

/-- `2 ^ 64`, the modulus of Rust `u64` arithmetic. -/
def U64_MOD : Nat := 18446744073709551616

/-- `2 ^ 16`, the modulus of Rust `u16` arithmetic. -/
def U16_MOD : Nat := 65536

/-- `const AVERAGE_BATCH_SIZE: u16 = 3000;` (main.rs line 26). -/
def AVERAGE_BATCH_SIZE : Nat := 3000

/-- `const DEFAULT_FILE_DESCRIPTORS_LIMIT: u64 = 8000;` (main.rs line 24). -/
def DEFAULT_FILE_DESCRIPTORS_LIMIT : Nat := 8000

/-- The fields of `Opts` that the FD-budget adapter reads: the requested
batch size (`u16`) and the optional user-requested ulimit (`Option<u64>`). -/
structure Opts where
  batch_size : Nat
  ulimit : Option Nat
deriving Repr, DecidableEq

/-- Observable behaviour of `infer_batch_size`: the returned `u16` batch
size (`none` models the panic of the final `try_into` via `expect`,
with its could-not-fit message), plus one boolean per diagnostic:
`lowLimitWarn` for the stderr warning `file limit is lower than default
batch size ...`, and `raiseInfo` for the stdout message `file limit higher
than batch size. can increase speed by increasing batch size ...`. -/
structure InferOutput where
  result : Option Nat
  lowLimitWarn : Bool
  raiseInfo : Bool
deriving Repr, DecidableEq

/-- Embedding of `infer_batch_size` (main.rs lines 185-220).  The local
`batch_size: u64` starts as `opts.batch_size` widened, is adjusted when the
ulimit is below it, and is finally converted back to `u16`, failing (rather
than truncating) when it does not fit.  The comparison `ulimit + 2 >
batch_size` and the subtraction `ulimit - 100` are u64 operations and wrap
modulo `2 ^ 64`. -/
def infer_batch_size (opts : Opts) (ulimit : Nat) : InferOutput :=
  let step : Nat × Bool × Bool :=
    if ulimit < opts.batch_size then
      (if ulimit < AVERAGE_BATCH_SIZE then ulimit / 2
       else if ulimit > DEFAULT_FILE_DESCRIPTORS_LIMIT then AVERAGE_BATCH_SIZE
       else (U64_MOD + ulimit - 100) % U64_MOD,
       true, false)
    else if (ulimit + 2) % U64_MOD > opts.batch_size ∧ opts.ulimit = none then
      (opts.batch_size, false, true)
    else
      (opts.batch_size, false, false)
  { result := if step.1 < U16_MOD then some step.1 else none
    lowLimitWarn := step.2.1
    raiseInfo := step.2.2 }

/-- The `u64` value held by the local `batch_size` variable of
`infer_batch_size` just before the final `try_into::<u16>()`. -/
def infer_batch_size_u64 (opts : Opts) (ulimit : Nat) : Nat :=
  if ulimit < opts.batch_size then
    if ulimit < AVERAGE_BATCH_SIZE then ulimit / 2
    else if ulimit > DEFAULT_FILE_DESCRIPTORS_LIMIT then AVERAGE_BATCH_SIZE
    else (U64_MOD + ulimit - 100) % U64_MOD
  else opts.batch_size

/-- The OS state the FD-budget adapter interacts with: the current soft and
hard NOFILE limits, and an abstract predicate saying for which values a
`setrlimit(NOFILE, u, u)` call would succeed. -/
structure SysEnv where
  canSet : Nat → Bool
  soft : Nat
  hard : Nat

/-- `Resource::NOFILE.set(limit, limit)`: on success both the soft and the
hard limit become `limit`; on failure the limits are unchanged.  The second
component reports success. -/
def NOFILE_set (env : SysEnv) (limit : Nat) : SysEnv × Bool :=
  if env.canSet limit then ({ env with soft := limit, hard := limit }, true)
  else (env, false)

/-- Observable behaviour of `adjust_ulimit_size`: the returned soft limit
and one boolean per diagnostic (`automatically increasing ulimit value to N`
on stdout, `failed to set ulimit value.` on stderr). -/
structure AdjustOutput where
  returned : Nat
  increasedMsg : Bool
  failedMsg : Bool
deriving Repr, DecidableEq

/-- Embedding of `adjust_ulimit_size` (main.rs lines 169-182): if a user
ulimit was given, try to set soft and hard NOFILE to it, reporting success
or failure; then return the (possibly updated) soft limit from
`Resource::NOFILE.get()`. -/
def adjust_ulimit_size (env : SysEnv) (opts : Opts) : AdjustOutput :=
  match opts.ulimit with
  | some limit =>
    let r := NOFILE_set env limit
    { returned := r.1.soft, increasedMsg := r.2, failedMsg := !r.2 }
  | none => { returned := env.soft, increasedMsg := false, failedMsg := false }

/-- One step of the grouping loop of `main` (lines 88-93):
`ports_per_ip.entry(socket.ip()).or_insert_with(Vec::new).push(socket.port())`
on the association-list model of the `HashMap`. -/
def ports_per_ip_push (m : List (IpAddr × List Nat)) (ip : IpAddr) (port : Nat) :
    List (IpAddr × List Nat) :=
  match m with
  | [] => [(ip, [port])]
  | (k, v) :: rest =>
    if k = ip then (k, v ++ [port]) :: rest
    else (k, v) :: ports_per_ip_push rest ip port

/-- The grouping loop of `main` (lines 86-93): fold every socket of the
scan result into the `ports_per_ip` map, in scan-result order. -/
def group_ports_per_ip (scan_result : List SocketAddr) : List (IpAddr × List Nat) :=
  List.foldl (fun m s => ports_per_ip_push m s.ip s.port) [] scan_result

/-- Lookup in the association-list model of the `HashMap` (`get` /
`contains_key`). -/
def findPorts (m : List (IpAddr × List Nat)) (ip : IpAddr) : Option (List Nat) :=
  match m with
  | [] => none
  | (k, v) :: rest => if k = ip then some v else findPorts rest ip

/-- The ports of exactly those sockets of the scan result whose address is
`ip`, in scan-result order.  Reference function for the grouping lemmas. -/
def portsOf (scan_result : List SocketAddr) (ip : IpAddr) : List Nat :=
  scan_result.filterMap (fun s => if s.ip = ip then some s.port else none)

/-- Observable behaviour of the modelled slice of `main` (lines 56-107):
whether the `no IPs could be resolved` diagnostic is emitted, the process
exit code, whether control ever reaches `Scanner::new`, the grouped
`ports_per_ip` map, and the list of addresses for which the
looks-like-no-open-ports-found diagnostic is emitted,
in emission order. -/
structure MainTrace where
  noIpsDiag : Bool
  exitCode : Nat
  scannerBuilt : Bool
  portsPerIp : List (IpAddr × List Nat)
  zeroPortDiags : List IpAddr
deriving Repr, DecidableEq

/-- Embedding of `main` from address resolution onward (lines 56-107):
abort with exit code 1 when no IPs resolved (before the scanner is built),
otherwise group the scan result by IP and emit the no-open-ports
diagnostic for every input IP without an entry in the map. -/
def main_run (ips : List IpAddr) (scan_result : List SocketAddr) : MainTrace :=
  if ips.isEmpty then
    { noIpsDiag := true
      exitCode := 1
      scannerBuilt := false
      portsPerIp := []
      zeroPortDiags := [] }
  else
    let m := group_ports_per_ip scan_result
    { noIpsDiag := false
      exitCode := 0
      scannerBuilt := true
      portsPerIp := m
      zeroPortDiags := ips.filter (fun ip => (findPorts m ip).isNone) }

/-! ### FD-budget adapter: shared characterization lemmas -/

/-- The returned batch size of `infer_batch_size` is the `u64` value of its
local variable, converted when it fits in 16 bits and a failure otherwise. -/
lemma infer_result_char (opts : Opts) (L : Nat) :
    (infer_batch_size opts L).result =
      if infer_batch_size_u64 opts L < U16_MOD then some (infer_batch_size_u64 opts L)
      else none := by
  dsimp only [infer_batch_size, infer_batch_size_u64]
  split_ifs <;> rfl

/-- With a `u16` requested batch size, the `u64` batch value always fits in
16 bits. -/
lemma infer_u64_lt (opts : Opts) (L : Nat) (hB : opts.batch_size < U16_MOD) :
    infer_batch_size_u64 opts L < U16_MOD := by
  simp only [infer_batch_size_u64, AVERAGE_BATCH_SIZE, DEFAULT_FILE_DESCRIPTORS_LIMIT,
    U16_MOD, U64_MOD] at *
  split_ifs <;> omega

/-- With a `u16` requested batch size, `infer_batch_size` returns the `u64`
batch value. -/
lemma infer_result_some (opts : Opts) (L : Nat) (hB : opts.batch_size < U16_MOD) :
    (infer_batch_size opts L).result = some (infer_batch_size_u64 opts L) := by
  rw [infer_result_char, if_pos (infer_u64_lt opts L hB)]

/-- The `u64` batch value never exceeds the requested batch size. -/
lemma infer_u64_le (opts : Opts) (L : Nat) :
    infer_batch_size_u64 opts L ≤ opts.batch_size := by
  simp only [infer_batch_size_u64, AVERAGE_BATCH_SIZE, DEFAULT_FILE_DESCRIPTORS_LIMIT,
    U64_MOD]
  split_ifs <;> omega

/-! ### FD-budget adapter theorems -/

/-- Claim C1: for every requested batch size `B` (a `u16`) and every queried
soft NOFILE limit `L` with `L < B`, `infer_batch_size` returns `⌊L / 2⌋`
when `L < 3000`, `3000` when `L > 8000`, and `L - 100` otherwise. -/
theorem infer_batch_size_adjust (opts : Opts) (L : Nat)
    (hB : opts.batch_size < U16_MOD) (hL : L < opts.batch_size) :
    (infer_batch_size opts L).result =
      some (if L < 3000 then L / 2 else if 8000 < L then 3000 else L - 100) := by
  rw [infer_result_some opts L hB]
  congr 1
  simp only [infer_batch_size_u64, AVERAGE_BATCH_SIZE, DEFAULT_FILE_DESCRIPTORS_LIMIT,
    U64_MOD]
  rw [if_pos hL]
  split_ifs <;> omega

/-- Witness for C1: batch size 50000 with soft limit 120 yields 60. -/
theorem infer_batch_size_adjust_witness :
    (infer_batch_size { batch_size := 50000, ulimit := none } 120).result = some 60 := by
  have h := infer_batch_size_adjust { batch_size := 50000, ulimit := none } 120
    (by decide) (by decide)
  simpa using h

/-- Claim C2: if the soft limit `L` is at least the requested batch size `B`
then `infer_batch_size` returns exactly `B`; and whatever `L` is, any
returned batch size is at most `B` (the adapter only lowers). -/
theorem infer_batch_size_respects_request (opts : Opts) (L : Nat)
    (hB : opts.batch_size < U16_MOD) :
    (opts.batch_size ≤ L →
       (infer_batch_size opts L).result = some opts.batch_size) ∧
    (∀ b, (infer_batch_size opts L).result = some b → b ≤ opts.batch_size) := by
  constructor
  · intro hge
    rw [infer_result_some opts L hB]
    congr 1
    simp only [infer_batch_size_u64]
    rw [if_neg (Nat.not_lt.mpr hge)]
  · intro b hb
    rw [infer_result_some opts L hB, Option.some.injEq] at hb
    exact hb ▸ infer_u64_le opts L

/-- Witness for C2: batch size 10 with soft limit 1000000 and no user
ulimit stays 10, and 10 is at most the requested 10. -/
theorem infer_batch_size_respects_request_witness :
    (infer_batch_size { batch_size := 10, ulimit := none } 1000000).result = some 10 ∧
    10 ≤ 10 := by
  have h := infer_batch_size_respects_request { batch_size := 10, ulimit := none }
    1000000 (by decide)
  exact ⟨h.1 (by decide), h.2 10 (h.1 (by decide))⟩

/-- Claim C4: the final `u16` conversion of `infer_batch_size` returns the
computed `u64` batch value exactly when it fits in 16 bits, and fails
(models the `expect` abort, surfaced before any probe runs) rather than
truncating when it does not. -/
theorem infer_batch_size_try_into (opts : Opts) (L : Nat) :
    (infer_batch_size opts L).result =
      if infer_batch_size_u64 opts L < U16_MOD then some (infer_batch_size_u64 opts L)
      else none :=
  infer_result_char opts L

/-- Claim C9: with a `u16` requested batch size, the value handed to the
final `try_into` always fits in 16 bits (the `expect` branch is
unreachable, the function always returns a value), and on the
`ulimit - 100` branch the limit is at least 3000, so the u64 subtraction
cannot underflow (the wrapped subtraction equals the plain one). -/
theorem infer_batch_size_total (opts : Opts) (L : Nat)
    (hB : opts.batch_size < U16_MOD) :
    (∃ b, (infer_batch_size opts L).result = some b) ∧
    (L < opts.batch_size → ¬ L < AVERAGE_BATCH_SIZE →
      ¬ L > DEFAULT_FILE_DESCRIPTORS_LIMIT →
      (U64_MOD + L - 100) % U64_MOD = L - 100 ∧ 3000 ≤ L) := by
  refine ⟨⟨infer_batch_size_u64 opts L, infer_result_some opts L hB⟩, ?_⟩
  simp only [AVERAGE_BATCH_SIZE, DEFAULT_FILE_DESCRIPTORS_LIMIT, U64_MOD]
  intro h1 h2 h3
  omega

/-- Witness for C9: at batch size 50000 and soft limit 5000 the function
returns a value, and the wrapped subtraction on that branch is the plain
`5000 - 100`. -/
theorem infer_batch_size_total_witness :
    (∃ b, (infer_batch_size { batch_size := 50000, ulimit := none } 5000).result = some b) ∧
    ((U64_MOD + 5000 - 100) % U64_MOD = 5000 - 100 ∧ 3000 ≤ 5000) := by
  have h := infer_batch_size_total { batch_size := 50000, ulimit := none } 5000 (by decide)
  exact ⟨h.1, h.2 (by decide) (by decide) (by decide)⟩

/-- Counterexample to C8 as stated: with requested batch size 10, no user
ulimit, and soft limit `2 ^ 64 - 1` (the value of `RLIM_INFINITY`, so
`L ≥ B` holds), the u64 comparison `ulimit + 2 > batch_size` wraps to
`1 > 10` and the informational message is not printed. -/
theorem infer_batch_size_raise_info_cex :
    10 ≤ 18446744073709551615 ∧
    (infer_batch_size { batch_size := 10, ulimit := none }
        18446744073709551615).raiseInfo = false := by
  constructor
  · decide
  · rfl

/-- Claim C8 (amended): whenever the soft limit `L` is at least the
requested batch size `B`, the u64 sum `L + 2` does not wrap (`L + 2 < 2 ^ 64`),
and the user did not provide a ulimit, the adapter prints the informational
`can increase speed by increasing batch size` message, and the returned
effective batch size is still exactly `B`. -/
theorem infer_batch_size_raise_info (opts : Opts) (L : Nat)
    (hB : opts.batch_size < U16_MOD) (hnone : opts.ulimit = none)
    (hge : opts.batch_size ≤ L) (hover : L + 2 < U64_MOD) :
    (infer_batch_size opts L).raiseInfo = true ∧
    (infer_batch_size opts L).result = some opts.batch_size := by
  have hnl : ¬ L < opts.batch_size := Nat.not_lt.mpr hge
  have hcond : (L + 2) % U64_MOD > opts.batch_size ∧ opts.ulimit = none := by
    refine ⟨?_, hnone⟩
    have hm : (L + 2) % U64_MOD = L + 2 := Nat.mod_eq_of_lt hover
    omega
  constructor
  · dsimp only [infer_batch_size]
    rw [if_neg hnl, if_pos hcond]
  · rw [infer_result_some opts L hB]
    congr 1
    simp only [infer_batch_size_u64]
    rw [if_neg hnl]

/-- Witness for C8 (amended): batch size 10, no user ulimit, soft limit
1000000 prints the message and returns 10. -/
theorem infer_batch_size_raise_info_witness :
    (infer_batch_size { batch_size := 10, ulimit := none } 1000000).raiseInfo = true ∧
    (infer_batch_size { batch_size := 10, ulimit := none } 1000000).result = some 10 :=
  infer_batch_size_raise_info { batch_size := 10, ulimit := none } 1000000
    (by decide) rfl (by decide) (by decide)

/-! ### Grouping: shared characterization lemmas -/

/-- One `entry(..).or_insert_with(..).push(..)` step appends the port to the
entry of its address and leaves every other lookup unchanged. -/
lemma findPorts_push (m : List (IpAddr × List Nat)) (ip0 : IpAddr) (p : Nat) (ip : IpAddr) :
    findPorts (ports_per_ip_push m ip0 p) ip =
      if ip = ip0 then some ((findPorts m ip0).getD [] ++ [p]) else findPorts m ip := by
  induction m with
  | nil =>
    by_cases h : ip = ip0
    · subst h
      simp [ports_per_ip_push, findPorts]
    · simp [ports_per_ip_push, findPorts, h, Ne.symm h]
  | cons kv rest ih =>
    obtain ⟨k, v⟩ := kv
    by_cases hk : k = ip0
    · subst hk
      by_cases hip : ip = k
      · subst hip
        simp [ports_per_ip_push, findPorts]
      · simp [ports_per_ip_push, findPorts, hip, Ne.symm hip]
    · by_cases hip : ip = k
      · subst hip
        simp [ports_per_ip_push, findPorts, hk, Ne.symm hk]
      · simp [ports_per_ip_push, findPorts, hk, Ne.symm hip, hip, ih]

/-- Folding the grouping step over a scan-result suffix, starting from an
arbitrary map. -/
lemma findPorts_foldl (scan : List SocketAddr) :
    ∀ (m : List (IpAddr × List Nat)) (ip : IpAddr),
      findPorts (List.foldl (fun m s => ports_per_ip_push m s.ip s.port) m scan) ip =
        match findPorts m ip with
        | some v => some (v ++ portsOf scan ip)
        | none => if portsOf scan ip = [] then none else some (portsOf scan ip) := by
  induction scan with
  | nil =>
    intro m ip
    cases h : findPorts m ip <;> simp [portsOf, h]
  | cons s rest ih =>
    intro m ip
    rw [List.foldl_cons, ih, findPorts_push]
    by_cases hip : ip = s.ip
    · subst hip
      cases h : findPorts m s.ip <;> simp [portsOf, h]
    · cases h : findPorts m ip <;> simp [portsOf, h, hip, Ne.symm hip]

/-- The `ports_per_ip` map built by `main` has an entry for an address iff
some socket of the scan result carries it, and the entry lists exactly the
ports of those sockets in scan-result order. -/
lemma findPorts_group (scan : List SocketAddr) (ip : IpAddr) :
    findPorts (group_ports_per_ip scan) ip =
      if portsOf scan ip = [] then none else some (portsOf scan ip) := by
  have h := findPorts_foldl scan [] ip
  simpa [group_ports_per_ip, findPorts] using h

/-- An entry of the built map is absent exactly when no socket of the scan
result has the address. -/
lemma findPorts_group_isNone (scan : List SocketAddr) (ip : IpAddr) :
    (findPorts (group_ports_per_ip scan) ip).isNone = true ↔ portsOf scan ip = [] := by
  rw [findPorts_group]
  split_ifs with h <;> simp [h]

/-! ### Aggregation and diagnostic theorems -/

/-- Claim C10: the per-IP grouping built by `main` has an entry for an IP
iff some socket of the scan result has that IP, and the entry contains
exactly the ports of the sockets with that IP, one occurrence per socket,
in scan-result order. -/
theorem group_ports_per_ip_complete (scan : List SocketAddr) (ip : IpAddr) :
    findPorts (group_ports_per_ip scan) ip =
      if portsOf scan ip = [] then none else some (portsOf scan ip) :=
  findPorts_group scan ip

/-- Counterexample to C3 as stated: a scan result whose probes for
`127.0.0.1`-like address `0` complete as port 80 before port 22 is grouped
by `main` into the list `[80, 22]`, which is not sorted in ascending port
order. -/
theorem group_ports_per_ip_not_sorted_cex :
    findPorts (main_run [0] [⟨0, 80⟩, ⟨0, 22⟩]).portsPerIp 0 = some [80, 22] ∧
    ¬ List.Sorted (· ≤ ·) [80, 22] := by
  constructor
  · rfl
  · decide

/-- Claim C3 (amended): the result aggregator groups the open endpoints by
IP into a mapping IP → list of ports in the order the probes completed
(scan-result order); the list is not re-sorted, so it is ascending only
when completion order was. -/
theorem group_ports_per_ip_order (scan : List SocketAddr) (ip : IpAddr)
    (l : List Nat) (h : findPorts (group_ports_per_ip scan) ip = some l) :
    l = portsOf scan ip := by
  rw [findPorts_group] at h
  split_ifs at h with hp
  cases h
  rfl

/-- Witness for C3 (amended): the grouped entry for address 0 equals the
scan-result-order projection of its ports. -/
theorem group_ports_per_ip_order_witness :
    [80, 22] = portsOf [⟨0, 80⟩, ⟨0, 22⟩] 0 :=
  group_ports_per_ip_order [⟨0, 80⟩, ⟨0, 22⟩] 0 [80, 22] rfl

/-- Claim C6: when address resolution yields no IPs, `main` emits the
`no IPs could be resolved` diagnostic and exits with code 1, without ever
constructing the scanner or probing (the outcome is the same for every
would-be scan result). -/
theorem main_run_aborts_without_ips (scan_result : List SocketAddr) :
    main_run [] scan_result =
      { noIpsDiag := true, exitCode := 1, scannerBuilt := false,
        portsPerIp := [], zeroPortDiags := [] } :=
  rfl

/-- Counterexample to C7 as stated: with the resolved list `[5, 5]`
(the same address appearing twice) and an empty scan result, address 5 has
zero open ports but the no-open-ports diagnostic is emitted twice, not
exactly once; so "exactly once for each input IP with zero open ports"
fails when the resolved list repeats an address. -/
theorem main_run_zero_port_diag_cex :
    portsOf [] 5 = [] ∧ (5 : IpAddr) ∈ [5, 5] ∧
    ¬ (main_run [5, 5] []).zeroPortDiags.count 5 = 1 := by
  refine ⟨rfl, by decide, ?_⟩
  decide

/-- Claim C7 (amended): after the scan, the no-open-ports diagnostic is
emitted once per occurrence in the resolved list of each IP with zero open
ports (hence exactly once each when the resolved list has no duplicates),
never for an IP with at least one open port, and the run completes with
exit code 0. -/
theorem main_run_zero_port_diags (ips : List IpAddr) (scan : List SocketAddr)
    (ip : IpAddr) :
    (portsOf scan ip ≠ [] → (main_run ips scan).zeroPortDiags.count ip = 0) ∧
    (portsOf scan ip = [] →
      (main_run ips scan).zeroPortDiags.count ip = ips.count ip) ∧
    (ips ≠ [] → (main_run ips scan).exitCode = 0) := by
  cases ips with
  | nil =>
    refine ⟨fun _ => ?_, fun _ => ?_, fun h => absurd rfl h⟩ <;> rfl
  | cons a t =>
    have hrun : main_run (a :: t) scan =
        { noIpsDiag := false, exitCode := 0, scannerBuilt := true,
          portsPerIp := group_ports_per_ip scan,
          zeroPortDiags := (a :: t).filter
            (fun ip => (findPorts (group_ports_per_ip scan) ip).isNone) } := rfl
    rw [hrun]
    refine ⟨?_, ?_, fun _ => rfl⟩
    · intro hne
      apply List.count_eq_zero_of_not_mem
      intro hmem
      rw [List.mem_filter] at hmem
      exact hne ((findPorts_group_isNone scan ip).mp hmem.2)
    · intro hz
      exact List.count_filter ((findPorts_group_isNone scan ip).mpr hz)

/-- Witness for C7 (amended): one resolved address 7 with an empty scan
result receives the diagnostic once (its count in the input list), and the
run exits with code 0. -/
theorem main_run_zero_port_diags_witness :
    (main_run [7] []).zeroPortDiags.count 7 = List.count 7 [7] ∧
    (main_run [7] []).exitCode = 0 :=
  ⟨(main_run_zero_port_diags [7] [] 7).2.1 rfl,
   (main_run_zero_port_diags [7] [] 7).2.2 (by decide)⟩

/-! ### Ulimit adjustment theorem -/

/-- Claim C5: with a user-provided ulimit `u`, `adjust_ulimit_size` attempts
to set both the soft and the hard NOFILE limit to `u`; on success it
reports the increase and returns the new soft limit `u`, on failure it
reports the failure, continues, ignores the requested value and returns
the unchanged soft limit. -/
theorem adjust_ulimit_size_spec (env : SysEnv) (opts : Opts) (u : Nat)
    (h : opts.ulimit = some u) :
    (env.canSet u = true →
      (NOFILE_set env u).1.soft = u ∧ (NOFILE_set env u).1.hard = u ∧
      adjust_ulimit_size env opts =
        { returned := u, increasedMsg := true, failedMsg := false }) ∧
    (env.canSet u = false →
      adjust_ulimit_size env opts =
        { returned := env.soft, increasedMsg := false, failedMsg := true }) := by
  constructor
  · intro hset
    simp [NOFILE_set, adjust_ulimit_size, h, hset]
  · intro hset
    simp [NOFILE_set, adjust_ulimit_size, h, hset]

/-- Witness for C5: an environment that accepts the request, with user
ulimit 2000, reports the increase and returns soft limit 2000. -/
theorem adjust_ulimit_size_spec_witness :
    adjust_ulimit_size { canSet := fun _ => true, soft := 1024, hard := 1024 }
        { batch_size := 50000, ulimit := some 2000 } =
      { returned := 2000, increasedMsg := true, failedMsg := false } :=
  ((adjust_ulimit_size_spec { canSet := fun _ => true, soft := 1024, hard := 1024 }
      { batch_size := 50000, ulimit := some 2000 } 2000 rfl).1 rfl).2.2

end RustScan
